import Mathlib

/-!
Verification of the recipe-driven provisioning engine (tx-run / recipe-installer).

The TypeScript sources are shallowly embedded: pure string and path
manipulation becomes structurally recursive functions over `List Char`
(so that every definition evaluates inside the kernel), filesystem and
network effects become explicit oracle parameters
(`fs : String → Option String`, query oracles, …), and fallible code
returns `Except String`.
-/

namespace TxRun

/-! ## Path jail (`resolveSafePath` in `src/utils.ts`)

Node's POSIX `path.resolve` is modelled for an absolute first argument:
split on `/`, drop empty and `.` segments, let `..` pop the last kept
segment (popping at the root is a no-op), and rejoin absolutely.  The
installer always passes an absolute base (`path.resolve(targetDir)`).
-/

/-- Split a character list on the POSIX separator `/`.
Mirrors the segment decomposition `path.resolve` performs. -/
def splitOnSlash : List Char → List (List Char)
  | [] => [[]]
  | c :: rest =>
    let r := splitOnSlash rest
    if c = '/' then [] :: r
    else
      match r with
      | [] => [[c]]
      | s :: ss => (c :: s) :: ss

/-- Normalisation stack: `""` and `"."` segments vanish, `".."` pops the
previously kept segment (no-op at the root), others are kept.
`acc` holds the kept segments in reverse order. -/
def normSegsAux : List (List Char) → List (List Char) → List (List Char)
  | acc, [] => acc.reverse
  | acc, seg :: rest =>
    if seg = [] ∨ seg = ['.'] then normSegsAux acc rest
    else if seg = ['.', '.'] then normSegsAux acc.tail rest
    else normSegsAux (seg :: acc) rest

/-- Rejoin segments with `/` between them (no leading separator). -/
def joinSegs : List (List Char) → List Char
  | [] => []
  | [s] => s
  | s :: rest => s ++ '/' :: joinSegs rest

/-- Normalise an absolute POSIX path: `path.resolve(p)` for absolute `p`. -/
def normalizeAbs (p : String) : String :=
  String.mk ('/' :: joinSegs (normSegsAux [] (splitOnSlash p.data)))

/-- Is the path absolute (starts with `/`)? -/
def isAbsolutePath (p : String) : Bool :=
  match p.data with
  | '/' :: _ => true
  | _ => false

/-- `path.resolve(base, rel)` for an absolute `base`: an absolute `rel`
wins outright, otherwise the concatenation is normalised. -/
def resolvePath (base rel : String) : String :=
  if isAbsolutePath rel then normalizeAbs rel
  else normalizeAbs (base ++ "/" ++ rel)

/-- `s.startsWith(pre)` on strings, via list prefix testing. -/
def strStartsWith (s pre : String) : Bool :=
  List.isPrefixOf pre.data s.data

/-- The path-escape error text thrown by `resolveSafePath`. -/
def pathEscapeMsg (relativePath resolved normalizedBase : String) : String :=
  "Path \"" ++ relativePath ++ "\" resolves outside the base directory. " ++
    "Resolved: " ++ resolved ++ ", Base: " ++ normalizedBase

/-- `resolveSafePath` from `src/utils.ts`:
resolve `relativePath` against `basePath`, then require the result to be
the normalised base itself or to start with the base plus separator;
otherwise throw the path-escape error.  (The source binds `resolved` and
`normalizedBase` with `const`; they are inlined here.) -/
def resolveSafePath (basePath relativePath : String) : Except String String :=
  if !(strStartsWith (resolvePath basePath relativePath) (normalizeAbs basePath ++ "/")) &&
      resolvePath basePath relativePath != normalizeAbs basePath then
    Except.error
      (pathEscapeMsg relativePath (resolvePath basePath relativePath) (normalizeAbs basePath))
  else
    Except.ok (resolvePath basePath relativePath)

/-! ## Variable store

`ctx.vars` is a JS object `Record<string, string>`; it is modelled as an
insertion-ordered association list of own entries.  `lookupVar` is the
own-entry read (`[[GetOwnProperty]]`); the full member access
`ctx.vars[varName]` additionally walks the prototype chain and is
modelled separately by `jsMemberLookup` below.  `setKey` is own-entry
assignment (overwrite in place, else append), `objectAssign` is the
object-literal spread `{...a, ...b}` (CreateDataProperty: every own
enumerable source entry becomes an own target entry, no setter is
consulted) as used by the `ctx.vars` literal in `main`, `objectAssignJS`
is `Object.assign` (`[[Set]]` per entry: an own `"__proto__"` source key
triggers the inherited accessor instead of creating an entry), and
`lookupLast` is the value the *last* assignment of a key in an update
list would leave. -/

/-- Own-entry read `[[GetOwnProperty]]` (first binding wins; `setKey`
keeps the list duplicate-free, so the first binding is the only one).
This is not the full member access — see `jsMemberLookup`. -/
def lookupVar {α : Type} : List (String × α) → String → Option α
  | [], _ => none
  | (k', v) :: rest, k => if k' = k then some v else lookupVar rest k

/-- Property assignment `m[k] = v`: overwrite the existing binding in
place, otherwise append a new one (JS insertion order). -/
def setKey {α : Type} : List (String × α) → String → α → List (String × α)
  | [], k, v => [(k, v)]
  | (k', v') :: rest, k, v =>
    if k' = k then (k, v) :: rest else (k', v') :: setKey rest k v

/-- Object-literal spread `{...m, ...updates}`: each own enumerable
source entry is defined as an own target entry (CreateDataProperty — no
setter traversal), in order, so a later binding of the same key wins. -/
def objectAssign {α : Type} (m : List (String × α)) (updates : List (String × α)) :
    List (String × α) :=
  updates.foldl (fun acc kv => setKey acc kv.1 kv.2) m

/-- `Object.assign(m, updates)`: each own enumerable source entry is
written with `[[Set]]`, in order.  On a plain-object target a
`"__proto__"` key finds the inherited `Object.prototype` accessor, so it
never creates an own entry: the setter drops a primitive value silently
and would replace the target's prototype for an object value (a
prototype mutation, which produces no entry either). -/
def objectAssignJS {α : Type} : List (String × α) → List (String × α) → List (String × α)
  | m, [] => m
  | m, (k, v) :: rest =>
    if k = "__proto__" then objectAssignJS m rest
    else objectAssignJS (setKey m k v) rest

/-- The value left by the last occurrence of `k` in an update list. -/
def lookupLast {α : Type} : List (String × α) → String → Option α
  | [], _ => none
  | (k', v) :: rest, k =>
    match lookupLast rest k with
    | some w => some w
    | none => if k' = k then some v else none

/-- The lookup an `Object.assign` merge should realise: the last binding
of the key in the update list wins, else the original map answers. -/
def mergedLookup {α : Type} (u m : List (String × α)) (k : String) : Option α :=
  match lookupLast u k with
  | some v => some v
  | none => lookupVar m k

/-- Public variable map (`ctx.vars : Record<string, string>`). -/
abbrev Vars := List (String × String)

/-- The members a plain object literal (prototype `Object.prototype`)
inherits, with the string each value coerces to when the `replace`
callback returns it (V8/Node native-function source text; the
`__proto__` getter yields `Object.prototype`, which stringifies as the
default object representation).  These are the twelve own property
names of `Object.prototype`; all of them match the regex `\w+`. -/
def protoValue : String → Option String
  | "constructor" => some "function Object() { [native code] }"
  | "hasOwnProperty" => some "function hasOwnProperty() { [native code] }"
  | "isPrototypeOf" => some "function isPrototypeOf() { [native code] }"
  | "propertyIsEnumerable" => some "function propertyIsEnumerable() { [native code] }"
  | "toLocaleString" => some "function toLocaleString() { [native code] }"
  | "toString" => some "function toString() { [native code] }"
  | "valueOf" => some "function valueOf() { [native code] }"
  | "__proto__" => some "[object Object]"
  | "__defineGetter__" => some "function __defineGetter__() { [native code] }"
  | "__defineSetter__" => some "function __defineSetter__() { [native code] }"
  | "__lookupGetter__" => some "function __lookupGetter__() { [native code] }"
  | "__lookupSetter__" => some "function __lookupSetter__() { [native code] }"
  | _ => none

/-- The JS member access `ctx.vars[varName]` on a plain object: an own
entry if present, else the inherited `Object.prototype` member.  Only
`undefined` (here `none`) lets the `??` fallback keep the matched text;
an inherited function or object is a non-nullish hit whose value the
replacement coerces to a string. -/
def jsMemberLookup (vars : Vars) (name : String) : Option String :=
  match lookupVar vars name with
  | some v => some v
  | none => protoValue name

/-! ## `{{name}}` template substitution (`replaceString` in
`src/actions/write_file.ts`)

The source is `content.replace(/\{\{(\w+)\}\}/g, (match, varName) =>
ctx.vars[varName] ?? match)`.  The global regex scans left to right; at
each position a match needs `{{`, one or more word characters, then
`}}` (since `\w` never matches `}`, greedy matching without backtracking
is exact).  `scanStep` performs one such attempt at the head of the
character list; the scan driver recurses on the unconsumed suffix, using
the remaining length as structural fuel so the kernel can evaluate it. -/

/-- JS regex `\w`: ASCII letters, digits, underscore. -/
def isWordChar (c : Char) : Bool :=
  c.isAlpha || c.isDigit || c = '_'

/-- One scanner step: a placeholder match at the head, or one literal
character.  When `{{` is present but the rest does not complete a
placeholder, the regex advances one position, i.e. the first `{` is a
literal and scanning resumes at the second `{`. -/
inductive StepRes where
  | ph (name : List Char) (tail : List Char)
  | lit (c : Char) (rest : List Char)

/-- Attempt a regex match at the current position (see `StepRes`). -/
def scanStep : List Char → Option StepRes
  | [] => none
  | '{' :: '{' :: rest =>
    let name := rest.takeWhile isWordChar
    if name = [] then some (StepRes.lit '{' ('{' :: rest))
    else
      match rest.dropWhile isWordChar with
      | '}' :: '}' :: tail => some (StepRes.ph name tail)
      | _ => some (StepRes.lit '{' ('{' :: rest))
  | c :: rest => some (StepRes.lit c rest)

/-- The replacement for one matched placeholder:
`ctx.vars[varName] ?? match` — the member access's value (own entry or
inherited `Object.prototype` member) if it is not nullish, the matched
text `{{name}}` verbatim otherwise (fail-open only for names that
resolve to `undefined`). -/
def phReplacement (vars : Vars) (name : List Char) : List Char :=
  match jsMemberLookup vars (String.mk name) with
  | some v => v.data
  | none => '{' :: '{' :: (name ++ ['}', '}'])

/-- The global-regex replacement loop.  `fuel` bounds the recursion (each
step consumes at least one character); callers pass the content length,
so the `fuel = 0` case is only reached on empty content, where it
agrees with the real scan. -/
def substFuel (vars : Vars) : Nat → List Char → List Char
  | 0, l => l
  | fuel + 1, l =>
    match scanStep l with
    | none => []
    | some (StepRes.ph name tail) => phReplacement vars name ++ substFuel vars fuel tail
    | some (StepRes.lit c rest) => c :: substFuel vars fuel rest

/-- `all_vars` substitution over a character list. -/
def substAllVarsChars (vars : Vars) (l : List Char) : List Char :=
  substFuel vars l.length l

/-- `all_vars` substitution over file content:
`content.replace(/\{\{(\w+)\}\}/g, (match, varName) => ctx.vars[varName] ?? match)`. -/
def replaceAllVars (vars : Vars) (content : String) : String :=
  String.mk (substAllVarsChars vars content.data)

/-! Specification-side view of the same content: a decomposition into
literal characters and placeholders, rendered token by token. -/

/-- A token of the content: a literal character, or a `{{name}}`
placeholder with the given name. -/
inductive Tok where
  | lit (c : Char)
  | ph (name : List Char)

/-- Tokenisation driver, same scan as `substFuel` but keeping the
structure instead of substituting.  At exhausted fuel the remaining
characters are all literals. -/
def tokenizeFuel : Nat → List Char → List Tok
  | 0, l => l.map Tok.lit
  | fuel + 1, l =>
    match scanStep l with
    | none => []
    | some (StepRes.ph name tail) => Tok.ph name :: tokenizeFuel fuel tail
    | some (StepRes.lit c rest) => Tok.lit c :: tokenizeFuel fuel rest

/-- Decompose content into literal and placeholder tokens. -/
def tokenize (l : List Char) : List Tok :=
  tokenizeFuel l.length l

/-- Spec-side rendering of one token under a variable map: a
placeholder the member access resolves (own entry or inherited
`Object.prototype` member) becomes that value, an unresolvable one
stays verbatim, a literal character is untouched. -/
def renderTok (vars : Vars) : Tok → List Char
  | Tok.lit c => [c]
  | Tok.ph name => phReplacement vars name

/-- Rendering that keeps every placeholder verbatim (identity view). -/
def renderVerbatim : Tok → List Char
  | Tok.lit c => [c]
  | Tok.ph name => '{' :: '{' :: (name ++ ['}', '}'])

/-- Concatenate the renderings of a token list. -/
def renderAll (f : Tok → List Char) : List Tok → List Char
  | [] => []
  | t :: ts => f t ++ renderAll f ts

/-- Does the tokenised content contain a placeholder whose name is
*bound in the map* (an own key of `vars`)?  This is the claim's notion
of a remaining matching placeholder. -/
def hasBoundPlaceholder (vars : Vars) (content : String) : Bool :=
  (tokenize content.data).any fun t =>
    match t with
    | Tok.ph name => (lookupVar vars (String.mk name)).isSome
    | Tok.lit _ => false

/-- Does the tokenised content contain a placeholder the member access
resolves — an own key of `vars` or an inherited `Object.prototype`
member name?  Exactly these placeholders are rewritten by the
program. -/
def hasResolvablePlaceholder (vars : Vars) (content : String) : Bool :=
  (tokenize content.data).any fun t =>
    match t with
    | Tok.ph name => (jsMemberLookup vars (String.mk name)).isSome
    | Tok.lit _ => false

/-! ## Execution context (`RecipeContext` in `src/types.ts`) and its
construction in `main` (`src/index.ts`)

`types.ts` declares both `vars` ("Variables from recipe + user input
(accessible to recipe actions)") and `sensitiveVars` ("Sensitive
variables hidden from recipe actions (DB creds, license key)").  The
database connection is an opaque handle, modelled as `Unit`. -/

structure RecipeContext where
  vars : Vars
  sensitiveVars : Vars
  basePath : String
  dbConnection : Option Unit
  skipDb : Bool

/-- JS truthiness of an optional string field: `undefined` and `""` are
falsy. -/
def truthy : Option String → Bool
  | none => false
  | some s => s != ""

/-- JS `a || b` for an optional string `a`: `b` when `a` is `undefined`
or empty. -/
def jsOrElse (a : Option String) (b : String) : String :=
  match a with
  | some s => if s = "" then b else s
  | none => b

/-- Characters `encodeURIComponent` leaves unescaped:
`A-Z a-z 0-9 - _ . ! ~ * ' ( )` (39 is the apostrophe). -/
def isURIUnreserved (c : Char) : Bool :=
  c.isAlpha || c.isDigit || c = '-' || c = '_' || c = '.' || c = '!' ||
    c = '~' || c = '*' || c.toNat = 39 || c = '(' || c = ')'

/-- UTF-8 bytes of a code point. -/
def utf8Bytes (n : Nat) : List Nat :=
  if n < 0x80 then [n]
  else if n < 0x800 then
    [0xC0 ||| (n >>> 6), 0x80 ||| (n &&& 0x3F)]
  else if n < 0x10000 then
    [0xE0 ||| (n >>> 12), 0x80 ||| ((n >>> 6) &&& 0x3F), 0x80 ||| (n &&& 0x3F)]
  else
    [0xF0 ||| (n >>> 18), 0x80 ||| ((n >>> 12) &&& 0x3F),
     0x80 ||| ((n >>> 6) &&& 0x3F), 0x80 ||| (n &&& 0x3F)]

/-- Uppercase hex digit of a value below 16. -/
def hexDigit (n : Nat) : Char :=
  if n < 10 then Char.ofNat (48 + n) else Char.ofNat (55 + n)

/-- `%XY` percent-encoding of one byte. -/
def percentEncodeByte (b : Nat) : List Char :=
  ['%', hexDigit (b / 16), hexDigit (b % 16)]

/-- JS `encodeURIComponent`. -/
def encodeURIComponent (s : String) : String :=
  String.mk (s.data.foldr
    (fun c acc =>
      (if isURIUnreserved c then [c]
       else (utf8Bytes c.toNat).foldr (fun b a => percentEncodeByte b ++ a) []) ++ acc)
    [])

/-- `dbVars` as built in `main` (`src/index.ts` lines 152-162) from the
interactive prompt answers: each field defaulted with `||`, plus the
derived `dbConnectionString`. -/
def buildDbVars (dbHostIn dbPortIn dbUsernameIn dbPasswordIn dbNameIn : Option String) :
    Vars :=
  let dbHost := jsOrElse dbHostIn "localhost"
  let dbPort := jsOrElse dbPortIn "3306"
  let dbUsername := jsOrElse dbUsernameIn "root"
  let dbPassword := jsOrElse dbPasswordIn ""
  let dbName := jsOrElse dbNameIn "rsg_redm"
  [("dbHost", dbHost), ("dbPort", dbPort), ("dbUsername", dbUsername),
   ("dbPassword", dbPassword), ("dbName", dbName),
   ("dbConnectionString",
     "mysql://" ++ encodeURIComponent dbUsername ++ ":" ++
       encodeURIComponent dbPassword ++ "@" ++ dbHost ++ ":" ++ dbPort ++
       "/" ++ dbName ++ "?charset=utf8mb4")]

/-- `Object.entries(recipe.variables || {}).filter(([, v]) => v != null)`:
drop null-valued recipe default variables. -/
def filterNonNull (l : List (String × Option String)) : Vars :=
  l.foldr
    (fun kv acc =>
      match kv.2 with
      | some v => (kv.1, v) :: acc
      | none => acc)
    []

/-- Fixed default for the `serverEndpoints` variable. -/
def serverEndpointsDefault : String :=
  "endpoint_add_tcp \"0.0.0.0:30120\"\nendpoint_add_udp \"0.0.0.0:30120\""

/-- The public variable map of the run as assembled in `main`
(`src/index.ts` lines 206-223): recipe defaults, then `dbVars`, then the
prompted license key / server name and the fixed engine entries — each
later spread overwriting the earlier ones. -/
def buildVars (recipeVariables : List (String × Option String)) (dbVars : Vars)
    (svLicenseIn serverNameIn : Option String)
    (recipeName recipeAuthor recipeVersion recipeDescription : String) : Vars :=
  objectAssign (objectAssign (filterNonNull recipeVariables) dbVars)
    [("svLicense", jsOrElse svLicenseIn ""),
     ("serverName", jsOrElse serverNameIn recipeName),
     ("recipeName", recipeName),
     ("recipeAuthor", recipeAuthor),
     ("recipeVersion", recipeVersion),
     ("recipeDescription", recipeDescription),
     ("maxClients", "32"),
     ("serverEndpoints", serverEndpointsDefault)]

/-- The `RecipeContext` literal of `main` (`src/index.ts` lines 206-223).
The source object contains only `vars`, `basePath` and `skipDb`:
`sensitiveVars` is never assigned (modelled as the empty map) and
`dbConnection` starts unset. -/
def buildCtx (recipeVariables : List (String × Option String)) (dbVars : Vars)
    (svLicenseIn serverNameIn : Option String)
    (recipeName recipeAuthor recipeVersion recipeDescription : String)
    (basePath : String) (skipDb : Bool) : RecipeContext :=
  { vars := buildVars recipeVariables dbVars svLicenseIn serverNameIn
      recipeName recipeAuthor recipeVersion recipeDescription,
    sensitiveVars := [],
    basePath := basePath,
    dbConnection := none,
    skipDb := skipDb }

/-! ## JSON values and `loadVars` (`src/actions/misc.ts`)

`loadVars` reads a jailed file, `JSON.parse`s it, rejects the result
unless `typeof vars === 'object' && vars !== null`, then
`Object.assign`s it into `ctx.vars`.  The decoded value is passed in
directly (path resolution, file reading and parsing happen before the
check being modelled). -/

inductive JsonValue where
  | str (s : String)
  | num (n : Int)
  | boolean (b : Bool)
  | null
  | arr (elems : List JsonValue)
  | obj (fields : List (String × JsonValue))

/-- JS `typeof` of a decoded JSON value (`null`, arrays and objects are
all `"object"`). -/
def jsTypeof : JsonValue → String
  | JsonValue.str _ => "string"
  | JsonValue.num _ => "number"
  | JsonValue.boolean _ => "boolean"
  | JsonValue.null => "object"
  | JsonValue.arr _ => "object"
  | JsonValue.obj _ => "object"

def isNullJson : JsonValue → Bool
  | JsonValue.null => true
  | _ => false

/-- The source's acceptance condition as one predicate:
`typeof vars === 'object' && vars !== null`. -/
def jsObjectTyped (v : JsonValue) : Bool :=
  jsTypeof v == "object" && !(isNullJson v)

/-- Own enumerable string-keyed entries of a JS value, as `Object.assign`
enumerates them: an object's fields in order, an array's elements keyed
by their decimal index, nothing for primitives. -/
def ownEntries : JsonValue → List (String × JsonValue)
  | JsonValue.obj fields => fields
  | JsonValue.arr elems => elems.enum.map fun p => (toString p.1, p.2)
  | _ => []

/-- Untyped runtime variable map: `Object.assign(ctx.vars, vars)` copies
the decoded JSON values as they are, so values need not be strings. -/
abbrev VarsJ := List (String × JsonValue)

/-- The validation error text of `loadVars`. -/
def loadVarsErrMsg (src : String) : String :=
  "load_vars: expected JSON object in " ++ src

/-- `loadVars` (`src/actions/misc.ts`): reject anything that is not
object-typed or is `null`, otherwise `Object.assign` the decoded own
entries into the variable map with `[[Set]]` semantics (`JSON.parse`
does create an own `"__proto__"` data property, but assigning it routes
through the inherited accessor and creates no entry — see
`objectAssignJS`). -/
def loadVars (src : String) (parsed : JsonValue) (vars : VarsJ) : Except String VarsJ :=
  if jsTypeof parsed != "object" || isNullJson parsed then
    Except.error (loadVarsErrMsg src)
  else
    Except.ok (objectAssignJS vars (ownEntries parsed))

/-! ## Database actions (`src/actions/database.ts`)

Network effects are oracles: `net` is the outcome of
`mysql.createConnection`, `runQuery` the outcome of `connection.query`.
`connectDatabase` returns the updated context plus the SQL statements it
issued; `queryDatabase` returns the statements issued to the
connection (none when it throws first). -/

/-- The regex `^[a-zA-Z0-9_]+$` used to validate `dbName`. -/
def dbNameValid (s : String) : Bool :=
  s != "" && s.data.all fun c => c.isAlpha || c.isDigit || c = '_'

def invalidDbNameMsg (d : String) : String :=
  "Invalid database name \"" ++ d ++
    "\". Only alphanumeric characters and underscores are allowed."

def createDbSql (d : String) : String :=
  "CREATE DATABASE IF NOT EXISTS `" ++ d ++ "`"

def useDbSql (d : String) : String :=
  "USE `" ++ d ++ "`"

/-- `connectDatabase`: skip under `--skip-db`; validate a truthy `dbName`
from the public vars against the identifier regex; open the connection;
if `dbName` is truthy, create and select the database (a failure there
closes the connection and rethrows); store the connection in the
context. -/
def connectDatabase (ctx : RecipeContext) (net : Except String Unit)
    (runQuery : String → Except String Unit) :
    Except String (RecipeContext × List String) :=
  if ctx.skipDb then Except.ok (ctx, [])
  else
    let dbName := lookupVar ctx.vars "dbName"
    if truthy dbName && !(dbNameValid (dbName.getD "")) then
      Except.error (invalidDbNameMsg (dbName.getD ""))
    else
      match net with
      | Except.error e => Except.error e
      | Except.ok conn =>
        if truthy dbName then
          match runQuery (createDbSql (dbName.getD "")) with
          | Except.error e => Except.error e
          | Except.ok _ =>
            match runQuery (useDbSql (dbName.getD "")) with
            | Except.error e => Except.error e
            | Except.ok _ =>
              Except.ok ({ ctx with dbConnection := some conn },
                [createDbSql (dbName.getD ""), useDbSql (dbName.getD "")])
        else
          Except.ok ({ ctx with dbConnection := some conn }, [])

structure QueryDatabaseTask where
  file : Option String
  query : Option String

def noDbConnectionMsg : String :=
  "No database connection. Did you forget a connect_database action before query_database?"

def querySourceMsg : String :=
  "query_database requires either \"file\" or \"query\""

/-- `queryDatabase`: skip under `--skip-db`; require an open connection;
take the SQL from the jailed file when `task.file` is truthy, else from
`task.query` when truthy, else throw the validation error; issue the SQL
to the connection.  `fs` maps resolved paths to file contents. -/
def queryDatabase (task : QueryDatabaseTask) (ctx : RecipeContext)
    (fs : String → Option String) : Except String (List String) :=
  if ctx.skipDb then Except.ok []
  else if ctx.dbConnection.isNone then Except.error noDbConnectionMsg
  else if truthy task.file then
    match resolveSafePath ctx.basePath (task.file.getD "") with
    | Except.error e => Except.error e
    | Except.ok filePath =>
      match fs filePath with
      | none => Except.error ("ENOENT: no such file " ++ filePath)
      | some sql => Except.ok [sql]
  else if truthy task.query then Except.ok [task.query.getD ""]
  else Except.error querySourceMsg

/-! ## `replace_string` (`src/actions/write_file.ts`)

For each listed file: resolve through the jail, read, transform the
content according to the mode, write back.  On success the model returns
the `(path, newContent)` writes in order. -/

inductive ReplaceMode where
  | template
  | all_vars
  | literal
deriving DecidableEq

structure ReplaceStringTask where
  file : Sum String (List String)
  mode : Option ReplaceMode
  search : Option String
  replace : Option String

/-- `Array.isArray(task.file) ? task.file : [task.file]`. -/
def taskFiles : Sum String (List String) → List String
  | Sum.inl f => [f]
  | Sum.inr fs => fs

/-- `content.replaceAll(pat, repl)` for a non-empty `pat`: non-overlapping
left-to-right replacement.  Fuel is the content length (each step
consumes at least one character). -/
def replaceAllFuel (pat repl : List Char) : Nat → List Char → List Char
  | 0, l => l
  | _, [] => []
  | fuel + 1, c :: rest =>
    if List.isPrefixOf pat (c :: rest) then
      repl ++ replaceAllFuel pat repl fuel ((c :: rest).drop pat.length)
    else c :: replaceAllFuel pat repl fuel rest

/-- `s.replaceAll(pat, repl)`; the callers only reach it with a truthy
(hence non-empty) pattern, for which the identity on an empty pattern is
irrelevant. -/
def strReplaceAll (s pat repl : String) : String :=
  if pat.data = [] then s
  else String.mk (replaceAllFuel pat.data repl.data s.data.length s.data)

/-- The per-file content transformation of `replaceString`, by mode:
`all_vars` substitutes every placeholder from the public vars;
`template` replaces `search` by `replace` with placeholders substituted
in the replacement only; `literal` replaces exactly.  In `template` and
`literal` the replacement only happens when `task.search` is truthy and
`task.replace` is not `undefined`, otherwise the content is returned
unchanged. -/
def applyReplaceMode (mode : ReplaceMode) (search replace : Option String)
    (vars : Vars) (content : String) : String :=
  match mode with
  | ReplaceMode.all_vars => replaceAllVars vars content
  | ReplaceMode.template =>
    if truthy search && replace.isSome then
      strReplaceAll content (search.getD "") (replaceAllVars vars (replace.getD ""))
    else content
  | ReplaceMode.literal =>
    if truthy search && replace.isSome then
      strReplaceAll content (search.getD "") (replace.getD "")
    else content

/-- The file loop of `replaceString`: resolve each file through the jail,
read it, transform, write back (`fse.outputFile`).  The first failure
aborts the task. -/
def replaceStringFiles (task : ReplaceStringTask) (ctx : RecipeContext)
    (fs : String → Option String) : List String → Except String (List (String × String))
  | [] => Except.ok []
  | f :: rest =>
    match resolveSafePath ctx.basePath f with
    | Except.error e => Except.error e
    | Except.ok filePath =>
      match fs filePath with
      | none => Except.error ("ENOENT: no such file " ++ filePath)
      | some content =>
        match replaceStringFiles task ctx fs rest with
        | Except.error e => Except.error e
        | Except.ok writes =>
          Except.ok
            ((filePath,
              applyReplaceMode (task.mode.getD ReplaceMode.template)
                task.search task.replace ctx.vars content) :: writes)

/-- `replaceString` (`src/actions/write_file.ts`): run the loop over the
normalised file list, with `task.mode || 'template'`. -/
def replaceString (task : ReplaceStringTask) (ctx : RecipeContext)
    (fs : String → Option String) : Except String (List (String × String)) :=
  replaceStringFiles task ctx fs (taskFiles task.file)

/-! ## The executor loop of `main` (`src/index.ts` lines 235-259)

Each task either succeeds or throws; a throw triggers the continue/abort
prompt.  `results i` is whether handler `i` succeeds, `dec i` is the
continue/abort answer at task `i` (`false` both for an explicit decline
and for a cancelled prompt, whose destructured answer is `undefined` and
falsy).  The pair returned is the run outcome (`aborted` models
`process.exit(1)`) and the number of tasks that started executing. -/

inductive RunOutcome where
  | completed
  | aborted
deriving DecidableEq

/-- The `for` loop from task index `i` on, over the remaining success
flags. -/
def runFrom (dec : Nat → Bool) : List Bool → Nat → RunOutcome × Nat
  | [], _ => (RunOutcome.completed, 0)
  | ok :: rest, i =>
    if ok then
      let p := runFrom dec rest (i + 1)
      (p.1, p.2 + 1)
    else if dec i then
      let p := runFrom dec rest (i + 1)
      (p.1, p.2 + 1)
    else (RunOutcome.aborted, 1)

/-- The whole run. -/
def runTasks (dec : Nat → Bool) (results : List Bool) : RunOutcome × Nat :=
  runFrom dec results 0

/-! ## Helper lemmas -/

/-- A placeholder step really consumed the literal text `{{name}}`. -/
theorem scanStep_ph (l name tail : List Char)
    (h : scanStep l = some (StepRes.ph name tail)) :
    l = '{' :: '{' :: (name ++ '}' :: '}' :: tail) := by
  unfold scanStep at h
  split at h
  · simp at h
  · dsimp only at h
    split at h
    · simp at h
    · rename_i rest hne
      split at h
      · rename_i tail' hd
        simp only [Option.some.injEq, StepRes.ph.injEq] at h
        obtain ⟨hname, htail⟩ := h
        subst hname
        subst htail
        have hrest := List.takeWhile_append_dropWhile isWordChar rest
        rw [hd] at hrest
        exact congrArg (fun x => '{' :: '{' :: x) hrest.symm
      · simp at h
  · simp at h

/-- A literal step consumed exactly one character. -/
theorem scanStep_lit (l : List Char) (c : Char) (rest : List Char)
    (h : scanStep l = some (StepRes.lit c rest)) :
    l = c :: rest := by
  unfold scanStep at h
  split at h
  · simp at h
  · dsimp only at h
    split at h
    · simp only [Option.some.injEq, StepRes.lit.injEq] at h
      obtain ⟨hc, hr⟩ := h
      rw [← hc, ← hr]
    · split at h
      · simp at h
      · simp only [Option.some.injEq, StepRes.lit.injEq] at h
        obtain ⟨hc, hr⟩ := h
        rw [← hc, ← hr]
  · simp only [Option.some.injEq, StepRes.lit.injEq] at h
    obtain ⟨hc, hr⟩ := h
    rw [← hc, ← hr]

/-- The scan only stops on empty content. -/
theorem scanStep_none (l : List Char) (h : scanStep l = none) : l = [] := by
  unfold scanStep at h
  split at h
  · rfl
  · dsimp only at h
    split at h
    · simp at h
    · split at h <;> simp at h
  · simp at h

/-- Rendering all-literal tokens with any literal-preserving renderer is
the identity. -/
theorem renderAll_map_lit (f : Tok → List Char) (hf : ∀ c, f (Tok.lit c) = [c])
    (l : List Char) : renderAll f (l.map Tok.lit) = l := by
  induction l with
  | nil => rfl
  | cons c rest ih => simp [renderAll, hf, ih]

/-- The substitution loop is the token-wise rendering of the tokenised
content, at every fuel. -/
theorem substFuel_eq_render (vars : Vars) :
    ∀ (fuel : Nat) (l : List Char),
      substFuel vars fuel l = renderAll (renderTok vars) (tokenizeFuel fuel l) := by
  intro fuel
  induction fuel with
  | zero =>
    intro l
    simp [substFuel, tokenizeFuel, renderAll_map_lit (renderTok vars) (fun _ => rfl)]
  | succ fuel ih =>
    intro l
    simp only [substFuel, tokenizeFuel]
    cases hs : scanStep l with
    | none => simp [renderAll]
    | some res =>
      cases res with
      | ph name tail => simp [renderAll, renderTok, ih]
      | lit c rest => simp [renderAll, renderTok, ih]

/-- Tokenisation is lossless: rendering every placeholder verbatim
rebuilds the content exactly. -/
theorem tokenizeFuel_lossless :
    ∀ (fuel : Nat) (l : List Char),
      renderAll renderVerbatim (tokenizeFuel fuel l) = l := by
  intro fuel
  induction fuel with
  | zero =>
    intro l
    exact renderAll_map_lit renderVerbatim (fun _ => rfl) l
  | succ fuel ih =>
    intro l
    simp only [tokenizeFuel]
    cases hs : scanStep l with
    | none => simp [renderAll, scanStep_none l hs]
    | some res =>
      cases res with
      | ph name tail =>
        have hl := scanStep_ph l name tail hs
        simp [renderAll, renderVerbatim, ih, hl]
      | lit c rest =>
        have hl := scanStep_lit l c rest hs
        simp [renderAll, renderVerbatim, ih, hl]

/-- When the member access resolves no placeholder of the token list,
substitution renders exactly like the verbatim renderer. -/
theorem renderAll_eq_verbatim_of_unbound (vars : Vars) (ts : List Tok)
    (h : ∀ t ∈ ts, ∀ name, t = Tok.ph name → jsMemberLookup vars (String.mk name) = none) :
    renderAll (renderTok vars) ts = renderAll renderVerbatim ts := by
  induction ts with
  | nil => rfl
  | cons t rest ih =>
    have hrest := ih fun t' ht' => h t' (List.mem_cons_of_mem t ht')
    cases t with
    | lit c => simp [renderAll, renderTok, renderVerbatim, hrest]
    | ph name =>
      have hn := h (Tok.ph name) (List.mem_cons_self _ _) name rfl
      simp [renderAll, renderTok, renderVerbatim, phReplacement, hn, hrest]

/-- Reading after one JS property assignment. -/
theorem lookupVar_setKey {α : Type} (m : List (String × α)) (k k' : String) (v : α) :
    lookupVar (setKey m k v) k' = if k = k' then some v else lookupVar m k' := by
  induction m with
  | nil =>
    by_cases h : k = k' <;> simp [setKey, lookupVar, h]
  | cons kv rest ih =>
    obtain ⟨k0, v0⟩ := kv
    by_cases h0 : k0 = k
    · subst h0
      by_cases h : k0 = k' <;> simp [setKey, lookupVar, h]
    · by_cases h : k0 = k'
      · subst h
        have hne : k ≠ k0 := fun hkk => h0 hkk.symm
        simp [setKey, lookupVar, h0, hne]
      · simp [setKey, lookupVar, h0, h, ih]

/-- Reading after `Object.assign`: the last binding of the key in the
update list wins, else the original map answers. -/
theorem lookupVar_objectAssign {α : Type} (u : List (String × α)) :
    ∀ (m : List (String × α)) (k : String),
      lookupVar (objectAssign m u) k = mergedLookup u m k := by
  induction u with
  | nil => intro m k; simp [objectAssign, mergedLookup, lookupLast]
  | cons kv rest ih =>
    intro m k
    obtain ⟨k0, v0⟩ := kv
    have hstep : objectAssign m ((k0, v0) :: rest) = objectAssign (setKey m k0 v0) rest := rfl
    rw [hstep, ih (setKey m k0 v0) k]
    unfold mergedLookup
    simp only [lookupLast]
    cases lookupLast rest k with
    | some w => rfl
    | none =>
      simp only [lookupVar_setKey]
      by_cases hk : k0 = k <;> simp [hk]

/-- Reading after `Object.assign` with `[[Set]]` semantics: for any key
other than `"__proto__"` the last binding in the update list wins, else
the original map answers; the `"__proto__"` entry of the original map
is never touched and `"__proto__"` updates are never merged. -/
theorem lookupVar_objectAssignJS {α : Type} (u : List (String × α)) :
    ∀ (m : List (String × α)) (k : String),
      lookupVar (objectAssignJS m u) k =
        if k = "__proto__" then lookupVar m k else mergedLookup u m k := by
  induction u with
  | nil =>
    intro m k
    by_cases hk : k = "__proto__" <;>
      simp [objectAssignJS, mergedLookup, lookupLast, hk]
  | cons kv rest ih =>
    intro m k
    obtain ⟨k0, v0⟩ := kv
    by_cases h0 : k0 = "__proto__"
    · subst h0
      have hstep : objectAssignJS m (("__proto__", v0) :: rest) = objectAssignJS m rest := by
        simp [objectAssignJS]
      rw [hstep, ih m k]
      by_cases hk : k = "__proto__"
      · simp [hk]
      · simp only [if_neg hk]
        unfold mergedLookup
        simp only [lookupLast]
        have hpk : ¬ "__proto__" = k := fun h => hk h.symm
        cases lookupLast rest k <;> simp [hpk]
    · have hstep : objectAssignJS m ((k0, v0) :: rest) =
          objectAssignJS (setKey m k0 v0) rest := by
        simp [objectAssignJS, h0]
      rw [hstep, ih (setKey m k0 v0) k]
      by_cases hk : k = "__proto__"
      · subst hk
        simp only [if_pos rfl, lookupVar_setKey]
        simp [h0]
      · simp only [if_neg hk]
        unfold mergedLookup
        simp only [lookupLast]
        cases lookupLast rest k with
        | some w => rfl
        | none =>
          simp only [lookupVar_setKey]
          by_cases hx : k0 = k <;> simp [hx]

/-- Aborting behaviour of the task loop, generalised over the start
index: if the `k`-th remaining task is reached and fails and the
decision at its absolute index is `false`, the loop aborts right there
having executed exactly `k + 1` of the remaining tasks. -/
theorem runFrom_abort (dec : Nat → Bool) :
    ∀ (results : List Bool) (n k : Nat),
      k < (runFrom dec results n).2 →
      results.get? k = some false →
      dec (n + k) = false →
      (runFrom dec results n).1 = RunOutcome.aborted ∧
        (runFrom dec results n).2 = k + 1 := by
  intro results
  induction results with
  | nil =>
    intro n k hk hget hdec
    simp [runFrom] at hk
  | cons r rest ih =>
    intro n k hk hget hdec
    cases k with
    | zero =>
      have hr : r = false := by
        simpa [List.get?] using hget
      subst hr
      have hdec0 : dec n = false := by simpa using hdec
      simp [runFrom, hdec0]
    | succ k' =>
      have hget' : rest.get? k' = some false := by
        simpa [List.get?] using hget
      have hdec' : dec ((n + 1) + k') = false := by
        have : n + (k' + 1) = (n + 1) + k' := by omega
        rw [← this]
        exact hdec
      by_cases hr : r = true
      · subst hr
        have hk' : k' < (runFrom dec rest (n + 1)).2 := by
          have : (runFrom dec (true :: rest) n).2 = (runFrom dec rest (n + 1)).2 + 1 := by
            simp [runFrom]
          omega
        have := ih (n + 1) k' hk' hget' hdec'
        simp [runFrom, this.1, this.2]
      · have hr' : r = false := by
          cases r
          · rfl
          · exact absurd rfl hr
        subst hr'
        by_cases hd : dec n = true
        · have hk' : k' < (runFrom dec rest (n + 1)).2 := by
            have : (runFrom dec (false :: rest) n).2 = (runFrom dec rest (n + 1)).2 + 1 := by
              simp [runFrom, hd]
            omega
          have := ih (n + 1) k' hk' hget' hdec'
          simp [runFrom, hd, this.1, this.2]
        · have hd' : dec n = false := by
            cases hdn : dec n
            · rfl
            · exact absurd hdn hd
          have : (runFrom dec (false :: rest) n).2 = 1 := by
            simp [runFrom, hd']
          omega

/-- Rewriting `loadVars` through the acceptance predicate
`typeof vars === 'object' && vars !== null`. -/
theorem loadVars_eq (src : String) (parsed : JsonValue) (m : VarsJ) :
    loadVars src parsed m =
      if jsObjectTyped parsed then Except.ok (objectAssignJS m (ownEntries parsed))
      else Except.error (loadVarsErrMsg src) := by
  cases parsed <;> rfl

/-! ## Claims -/

/-- C1: `resolveSafePath B R` succeeds exactly when the absolute
resolution of `R` against `B` is the normalised `B` itself or a strict
descendant of it (normalised base plus separator as a string prefix),
and then returns that resolution; in every other case it fails with the
path-escape error. -/
theorem resolveSafePath_spec (B R : String) :
    ((resolvePath B R = normalizeAbs B ∨
        strStartsWith (resolvePath B R) (normalizeAbs B ++ "/") = true) →
      resolveSafePath B R = Except.ok (resolvePath B R)) ∧
    (resolvePath B R ≠ normalizeAbs B →
      strStartsWith (resolvePath B R) (normalizeAbs B ++ "/") = false →
      resolveSafePath B R =
        Except.error (pathEscapeMsg R (resolvePath B R) (normalizeAbs B))) := by
  constructor
  · intro h
    rcases h with h | h
    · unfold resolveSafePath
      simp [h]
    · unfold resolveSafePath
      simp [h]
  · intro h1 h2
    unfold resolveSafePath
    simp [h1, h2]

/-- Witness for C1 at a concrete confined input (spec §8 example):
`B = /srv/data`, `R = ./cfg/server.cfg` resolves to
`/srv/data/cfg/server.cfg`. -/
theorem resolveSafePath_spec_witness :
    resolveSafePath "/srv/data" "./cfg/server.cfg" =
      Except.ok "/srv/data/cfg/server.cfg" := by
  have h := (resolveSafePath_spec "/srv/data" "./cfg/server.cfg").1 (Or.inr (by decide))
  rw [h]
  have hv : resolvePath "/srv/data" "./cfg/server.cfg" = "/srv/data/cfg/server.cfg" := by
    decide
  rw [hv]

/-- Model sanity (spec §8): an escaping relative path is rejected. -/
example :
    resolveSafePath "/srv/data" "../../etc/passwd" =
      Except.error (pathEscapeMsg "../../etc/passwd" "/etc/passwd" "/srv/data") := rfl

/-- C2 (code bug evidence): `main` (`src/index.ts` lines 206-223) merges
the database credentials (`dbVars`, including `dbPassword` and
`dbConnectionString`) and the license key (`svLicense`) into `ctx.vars`,
the public map that `all_vars` templating reads, and leaves
`ctx.sensitiveVars` — declared in `types.ts` as "Sensitive variables
hidden from recipe actions (DB creds, license key)" and the map
`database.ts` reads its credentials from — unpopulated.  At this
concrete run a recipe-authored `all_vars` task writes both secrets into
an arbitrary jailed file. -/
theorem sensitiveVars_leaked_to_public_vars :
    lookupVar
        (buildCtx [] (buildDbVars (some "localhost") (some "3306") (some "root")
            (some "hunter2") (some "rsg_redm"))
          (some "LICENSEKEY123") (some "My Server") "r" "a" "1.0" "d" "/srv" false).vars
        "dbPassword" = some "hunter2" ∧
    (buildCtx [] (buildDbVars (some "localhost") (some "3306") (some "root")
        (some "hunter2") (some "rsg_redm"))
      (some "LICENSEKEY123") (some "My Server") "r" "a" "1.0" "d" "/srv" false).sensitiveVars
      = [] ∧
    replaceAllVars
        (buildCtx [] (buildDbVars (some "localhost") (some "3306") (some "root")
            (some "hunter2") (some "rsg_redm"))
          (some "LICENSEKEY123") (some "My Server") "r" "a" "1.0" "d" "/srv" false).vars
        "password={{dbPassword}} license={{svLicense}}" =
      "password=hunter2 license=LICENSEKEY123" :=
  ⟨rfl, rfl, rfl⟩

/-- C3: if task `i` is executed and fails and the continue/abort
decision at `i` is declined (or cannot be obtained — both yield a falsy
answer), the run aborts with a failure signal (`process.exit(1)`,
modelled as `RunOutcome.aborted`) having executed exactly tasks
`0..i` — no task with a greater index runs. -/
theorem executor_abort_on_decline (results : List Bool) (dec : Nat → Bool) (i : Nat)
    (hexec : i < (runTasks dec results).2)
    (hfail : results.get? i = some false)
    (hdec : dec i = false) :
    (runTasks dec results).1 = RunOutcome.aborted ∧
      (runTasks dec results).2 = i + 1 := by
  have h := runFrom_abort dec results 0 i (by simpa [runTasks] using hexec) hfail
    (by simpa using hdec)
  simpa [runTasks] using h

/-- Witness for C3: three tasks, the second fails, every decision is
"do not continue" — the run aborts after executing exactly two tasks. -/
theorem executor_abort_on_decline_witness :
    (runTasks (fun _ => false) [true, false, true]).1 = RunOutcome.aborted ∧
    (runTasks (fun _ => false) [true, false, true]).2 = 2 :=
  executor_abort_on_decline [true, false, true] (fun _ => false) 1 (by decide)
    (by decide) rfl

/-- C4 counterexample: a placeholder whose name is unbound in the
variable map is NOT always left verbatim — `ctx.vars[varName]` walks
the prototype chain, so `{{toString}}` under the empty map is replaced
by the stringified inherited `Object.prototype.toString`. -/
theorem replaceAllVars_proto_cex :
    replaceAllVars [] "Hi {{toString}}" =
      "Hi function toString() { [native code] }" ∧
    replaceAllVars [] "Hi {{toString}}" ≠ "Hi {{toString}}" :=
  ⟨rfl, by decide⟩

/-- C4 (amended): `all_vars` substitution is exactly the token-wise
rendering of the content's placeholder decomposition: every `{{name}}`
placeholder the member access resolves — an own key of the map, or
failing that an inherited `Object.prototype` member name such as
`toString` or `__proto__` — becomes the resolved value (own value, or
stringified inherited member), every placeholder resolving to
`undefined` stays verbatim (`renderTok`), and nothing else changes —
the decomposition rendered verbatim is the identity (second
conjunct). -/
theorem replaceString_allVars_spec (V : Vars) (C : String) :
    replaceAllVars V C = String.mk (renderAll (renderTok V) (tokenize C.data)) ∧
    String.mk (renderAll renderVerbatim (tokenize C.data)) = C := by
  constructor
  · unfold replaceAllVars substAllVarsChars tokenize
    rw [substFuel_eq_render]
  · unfold tokenize
    rw [tokenizeFuel_lossless C.data.length C.data]

/-- Model sanity (spec §8 examples). -/
example : replaceAllVars [("name", "X")] "Hi {{name}}" = "Hi X" := rfl

example : replaceAllVars [] "Hi {{name}}" = "Hi {{name}}" := rfl

example : replaceAllVars [("a", "Y")] "{{{a}}}" = "{Y}" := rfl

/-- C5 counterexample: a `query_database` task with BOTH a jailed file
and an inline query, executed with an open connection, does not fail
with the validation error — the file branch wins and the file's SQL is
issued to the database. -/
theorem queryDatabase_both_sources_cex :
    queryDatabase ⟨some "q.sql", some "SELECT 2"⟩
      { vars := [], sensitiveVars := [], basePath := "/srv/data",
        dbConnection := some (), skipDb := false }
      (fun p => if p = "/srv/data/q.sql" then some "SELECT 1" else none) =
      Except.ok ["SELECT 1"] := rfl

/-- C5 (amended): an executed `query_database` task with an open
connection fails with the validation error and issues no database call
exactly when NEITHER a truthy file nor a truthy inline query is given:
when the file field is truthy it takes precedence unconditionally (the
query field is never consulted, so the both-given case raises no
validation error), and when only the query field is truthy the inline
SQL is issued. -/
theorem queryDatabase_source_validation (task : QueryDatabaseTask)
    (ctx : RecipeContext) (fs : String → Option String)
    (hskip : ctx.skipDb = false) (hconn : ctx.dbConnection.isNone = false) :
    (truthy task.file = false → truthy task.query = false →
      queryDatabase task ctx fs = Except.error querySourceMsg) ∧
    (truthy task.file = true →
      queryDatabase task ctx fs =
        match resolveSafePath ctx.basePath (task.file.getD "") with
        | Except.error e => Except.error e
        | Except.ok filePath =>
          match fs filePath with
          | none => Except.error ("ENOENT: no such file " ++ filePath)
          | some sql => Except.ok [sql]) ∧
    (truthy task.file = false → truthy task.query = true →
      queryDatabase task ctx fs = Except.ok [task.query.getD ""]) := by
  refine ⟨?_, ?_, ?_⟩
  · intro hf hq
    unfold queryDatabase
    simp [hskip, hconn, hf, hq]
  · intro hf
    unfold queryDatabase
    simp [hskip, hconn, hf]
  · intro hf hq
    unfold queryDatabase
    simp [hskip, hconn, hf, hq]

/-- Witness for the amended C5: neither source given → the validation
error, no database call. -/
theorem queryDatabase_source_validation_witness :
    queryDatabase ⟨none, none⟩
      { vars := [], sensitiveVars := [], basePath := "/srv/data",
        dbConnection := some (), skipDb := false }
      (fun _ => none) = Except.error querySourceMsg :=
  (queryDatabase_source_validation ⟨none, none⟩
    { vars := [], sensitiveVars := [], basePath := "/srv/data",
      dbConnection := some (), skipDb := false }
    (fun _ => none) rfl rfl).1 rfl rfl

/-- C6: an executed `query_database` task with no open connection in the
context fails with the descriptive no-connection error before any
database call is issued. -/
theorem queryDatabase_requires_connection (task : QueryDatabaseTask)
    (ctx : RecipeContext) (fs : String → Option String)
    (hskip : ctx.skipDb = false) (hconn : ctx.dbConnection = none) :
    queryDatabase task ctx fs = Except.error noDbConnectionMsg := by
  unfold queryDatabase
  simp [hskip, hconn]

/-- Witness for C6 at a concrete task with an inline query but no prior
connect. -/
theorem queryDatabase_requires_connection_witness :
    queryDatabase ⟨none, some "SELECT 1"⟩
      { vars := [], sensitiveVars := [], basePath := "/srv/data",
        dbConnection := none, skipDb := false }
      (fun _ => none) = Except.error noDbConnectionMsg :=
  queryDatabase_requires_connection ⟨none, some "SELECT 1"⟩
    { vars := [], sensitiveVars := [], basePath := "/srv/data",
      dbConnection := none, skipDb := false }
    (fun _ => none) rfl rfl

/-- C7 counterexample: a decoded JSON array — not a flat object — is
accepted by `loadVars` (its `typeof` is `"object"`) and its index keys
are merged into the variable map, instead of failing with the
validation error the claim requires. -/
theorem loadVars_array_accepted :
    loadVars "vars.json" (JsonValue.arr [JsonValue.str "x"]) [] =
      Except.ok [("0", JsonValue.str "x")] := rfl

/-- C7 (amended): `loadVars` fails with the validation error (leaving
the map unproduced) exactly when the decoded value is not of JS object
type or is `null`; any object-typed value — object or array, flat or
not — is accepted and its own entries other than `"__proto__"` are
merged into the variable map, the newly loaded value winning on every
key conflict (the last binding in the update list wins, else the
original map answers).  An own `"__proto__"` key is never merged as an
entry: `Object.assign`'s `[[Set]]` routes it to the inherited accessor,
so the map's own `"__proto__"` reading is unchanged (a primitive value
is silently dropped; an object value would instead overwrite the map's
prototype — a mutation outside the entry-level map, likewise producing
no entry). -/
theorem loadVars_spec (src : String) (parsed : JsonValue) (m : VarsJ) :
    (jsObjectTyped parsed = false →
      loadVars src parsed m = Except.error (loadVarsErrMsg src)) ∧
    (jsObjectTyped parsed = true →
      loadVars src parsed m = Except.ok (objectAssignJS m (ownEntries parsed)) ∧
      ∀ k, lookupVar (objectAssignJS m (ownEntries parsed)) k =
        if k = "__proto__" then lookupVar m k
        else mergedLookup (ownEntries parsed) m k) := by
  constructor
  · intro hobj
    rw [loadVars_eq]
    simp [hobj]
  · intro hobj
    refine ⟨by rw [loadVars_eq]; simp [hobj], ?_⟩
    intro k
    exact lookupVar_objectAssignJS (ownEntries parsed) m k

/-- Model sanity: an own `__proto__` key in the decoded object is
accepted but merges no entry. -/
example :
    loadVars "vars.json"
        (JsonValue.obj [("__proto__", JsonValue.str "x"), ("b", JsonValue.str "2")]) [] =
      Except.ok [("b", JsonValue.str "2")] := rfl

/-- Witness for the amended C7: merging a flat object into an existing
map, the newly loaded value winning on the conflicting key `a`. -/
theorem loadVars_spec_witness :
    loadVars "vars.json"
        (JsonValue.obj [("a", JsonValue.str "1"), ("b", JsonValue.str "2")])
        [("a", JsonValue.str "0"), ("c", JsonValue.str "3")] =
      Except.ok
        [("a", JsonValue.str "1"), ("c", JsonValue.str "3"),
         ("b", JsonValue.str "2")] := by
  have h := ((loadVars_spec "vars.json"
      (JsonValue.obj [("a", JsonValue.str "1"), ("b", JsonValue.str "2")])
      [("a", JsonValue.str "0"), ("c", JsonValue.str "3")]).2 rfl).1
  rw [h]
  rfl

/-- C8 counterexample: substituting `V = {a: "{{toString}}"}` into
`{{a}}` yields `{{toString}}`, in which no placeholder bound in `V`
remains — yet re-applying the substitution rewrites it through the
inherited `Object.prototype.toString`, so it is not the identity. -/
theorem replaceAllVars_idem_cex :
    replaceAllVars [("a", "{{toString}}")] "{{a}}" = "{{toString}}" ∧
    hasBoundPlaceholder [("a", "{{toString}}")] "{{toString}}" = false ∧
    replaceAllVars [("a", "{{toString}}")] "{{toString}}" =
      "function toString() { [native code] }" :=
  ⟨rfl, rfl, rfl⟩

/-- C8 (amended): once substitution has produced content in which no
*resolvable* placeholder remains — none whose name is an own key of the
map or an inherited `Object.prototype` member name — re-applying
`all_vars` substitution is the identity. -/
theorem replaceAllVars_idem (V : Vars) (C Cp : String)
    (happly : replaceAllVars V C = Cp)
    (hnone : hasResolvablePlaceholder V Cp = false) :
    replaceAllVars V Cp = Cp := by
  have hunb : ∀ t ∈ tokenize Cp.data, ∀ name, t = Tok.ph name →
      jsMemberLookup V (String.mk name) = none := by
    intro t ht name hname
    subst hname
    cases hl : jsMemberLookup V (String.mk name) with
    | none => rfl
    | some v =>
      exfalso
      have hb : hasResolvablePlaceholder V Cp = true := by
        unfold hasResolvablePlaceholder
        rw [List.any_eq_true]
        exact ⟨Tok.ph name, ht, by simp [hl]⟩
      rw [hb] at hnone
      simp at hnone
  have h1 : replaceAllVars V Cp =
      String.mk (renderAll (renderTok V) (tokenize Cp.data)) := by
    unfold replaceAllVars substAllVarsChars tokenize
    rw [substFuel_eq_render]
  have h2 : renderAll renderVerbatim (tokenize Cp.data) = Cp.data :=
    tokenizeFuel_lossless Cp.data.length Cp.data
  rw [h1, renderAll_eq_verbatim_of_unbound V _ hunb, h2]

/-- Witness for C8: substituting `{name: X}` into `Hi {{name}}` gives
`Hi X`, on which the substitution is the identity. -/
theorem replaceAllVars_idem_witness :
    replaceAllVars [("name", "X")] "Hi X" = "Hi X" :=
  replaceAllVars_idem [("name", "X")] "Hi {{name}}" "Hi X" (by rfl) (by rfl)

/-- C9: under the skip-database flag both database actions return
success immediately — `connectDatabase` leaves the context unchanged
and issues no SQL, `queryDatabase` issues nothing — with no validation
at all (the context and the task are arbitrary: no connection need
exist and no SQL source need be given). -/
theorem skipDb_shortcircuit (ctx : RecipeContext) (net : Except String Unit)
    (runQuery : String → Except String Unit) (task : QueryDatabaseTask)
    (fs : String → Option String) (hskip : ctx.skipDb = true) :
    connectDatabase ctx net runQuery = Except.ok (ctx, []) ∧
    queryDatabase task ctx fs = Except.ok [] := by
  constructor
  · unfold connectDatabase
    simp [hskip]
  · unfold queryDatabase
    simp [hskip]

/-- Witness for C9 at a context with an invalid database name, no
connection, failing oracles, and a query task with neither source:
everything still succeeds under the flag. -/
theorem skipDb_shortcircuit_witness :
    connectDatabase
        { vars := [("dbName", "bad name!")], sensitiveVars := [], basePath := "/srv",
          dbConnection := none, skipDb := true }
        (Except.error "network down") (fun _ => Except.error "db down") =
      Except.ok
        ({ vars := [("dbName", "bad name!")], sensitiveVars := [], basePath := "/srv",
           dbConnection := none, skipDb := true }, []) ∧
    queryDatabase ⟨none, none⟩
        { vars := [("dbName", "bad name!")], sensitiveVars := [], basePath := "/srv",
          dbConnection := none, skipDb := true }
        (fun _ => none) = Except.ok [] :=
  skipDb_shortcircuit
    { vars := [("dbName", "bad name!")], sensitiveVars := [], basePath := "/srv",
      dbConnection := none, skipDb := true }
    (Except.error "network down") (fun _ => Except.error "db down")
    ⟨none, none⟩ (fun _ => none) rfl

/-- C10: a `replace_string` task in template or literal mode (explicitly
or by default) whose search field is missing or empty or whose replace
field is undefined does not fail: every listed file is resolved through
the jail and read (`rp`/`ct` name the successful resolutions and
contents), and each is rewritten with its content unchanged. -/
theorem replaceString_missing_fields_noop (task : ReplaceStringTask)
    (ctx : RecipeContext) (fs : String → Option String) (rp ct : String → String)
    (hmode : task.mode.getD ReplaceMode.template ≠ ReplaceMode.all_vars)
    (hfields : truthy task.search = false ∨ task.replace = none)
    (hres : ∀ f ∈ taskFiles task.file, resolveSafePath ctx.basePath f = Except.ok (rp f))
    (hread : ∀ f ∈ taskFiles task.file, fs (rp f) = some (ct f)) :
    replaceString task ctx fs =
      Except.ok ((taskFiles task.file).map fun f => (rp f, ct f)) := by
  have hnoop : ∀ content, applyReplaceMode (task.mode.getD ReplaceMode.template)
      task.search task.replace ctx.vars content = content := by
    intro content
    have hcond : (truthy task.search && task.replace.isSome) = false := by
      rcases hfields with hf | hf
      · simp [hf]
      · simp [hf]
    cases hm : task.mode.getD ReplaceMode.template with
    | all_vars => exact absurd hm hmode
    | template => simp [applyReplaceMode, hcond]
    | literal => simp [applyReplaceMode, hcond]
  unfold replaceString
  revert hres hread
  generalize taskFiles task.file = files
  induction files with
  | nil =>
    intro _ _
    rfl
  | cons f rest ih =>
    intro hres hread
    have h1 := hres f (List.mem_cons_self _ _)
    have h2 := hread f (List.mem_cons_self _ _)
    have ihh := ih (fun g hg => hres g (List.mem_cons_of_mem f hg))
      (fun g hg => hread g (List.mem_cons_of_mem f hg))
    simp only [replaceStringFiles, h1, h2, ihh, hnoop, List.map]

/-- Witness for C10: two files, default (template) mode, no search
field — both files are rewritten with their contents unchanged. -/
theorem replaceString_missing_fields_noop_witness :
    replaceString ⟨Sum.inr ["a.txt", "b.txt"], none, none, some "zzz"⟩
      { vars := [("x", "1")], sensitiveVars := [], basePath := "/srv",
        dbConnection := none, skipDb := false }
      (fun p => if p = "/srv/a.txt" then some "A{{x}}" else
        if p = "/srv/b.txt" then some "B" else none) =
      Except.ok [("/srv/a.txt", "A{{x}}"), ("/srv/b.txt", "B")] := by
  have h := replaceString_missing_fields_noop
    ⟨Sum.inr ["a.txt", "b.txt"], none, none, some "zzz"⟩
    { vars := [("x", "1")], sensitiveVars := [], basePath := "/srv",
      dbConnection := none, skipDb := false }
    (fun p => if p = "/srv/a.txt" then some "A{{x}}" else
      if p = "/srv/b.txt" then some "B" else none)
    (fun f => if f = "a.txt" then "/srv/a.txt" else "/srv/b.txt")
    (fun f => if f = "a.txt" then "A{{x}}" else "B")
    (by decide) (Or.inl rfl)
    (by
      intro f hf
      simp only [taskFiles, List.mem_cons, List.not_mem_nil, or_false] at hf
      rcases hf with rfl | rfl <;> rfl)
    (by
      intro f hf
      simp only [taskFiles, List.mem_cons, List.not_mem_nil, or_false] at hf
      rcases hf with rfl | rfl <;> rfl)
  exact h

end TxRun
